import Mathlib

/-
Verification development for the SAR ticket availability monitor
(src/monitor.py).  The Python module is shallowly embedded: pure helper
functions become Lean functions; the Playwright page object becomes an
explicit `Page` value (rendered body text plus the results of DOM selector
queries); raised exceptions become `Option.none` results; `datetime`
values become a `Date` structure carrying the proleptic-Gregorian
invariant that `datetime` enforces by construction.
-/

/- ===================== Calendar model (Python datetime) ================= -/

/-- A raw calendar date (year, month, day), the data carried by a Python
`datetime` restricted to its date part, before any validity is imposed. -/
structure Date where
  year : Nat
  month : Nat
  day : Nat
deriving DecidableEq

/-- Python's leap-year rule (`datetime._is_leap`): divisible by 4 and not by
100, or divisible by 400. -/
def isLeap (y : Nat) : Bool :=
  (y % 4 == 0 && !(y % 100 == 0)) || (y % 400 == 0)

/-- Length of month `m` (1..12) in a year whose leap flag is `leap`
(`datetime._days_in_month`).  Months outside 1..12 never occur in a valid
date; they are mapped to 0. -/
def monthLen (leap : Bool) (m : Nat) : Nat :=
  match m with
  | 1 => 31
  | 2 => if leap then 29 else 28
  | 3 => 31
  | 4 => 30
  | 5 => 31
  | 6 => 30
  | 7 => 31
  | 8 => 31
  | 9 => 30
  | 10 => 31
  | 11 => 30
  | 12 => 31
  | _ => 0

/-- Days in month `m` of year `y` (`datetime._days_in_month`). -/
def daysInMonth (y m : Nat) : Nat := monthLen (isLeap y) m

/-- Cumulative number of days before month `m` in a year with leap flag
`leap` (`datetime._days_before_month`).  The entry for `m = 13` is the total
length of the year; it is used in proofs only. -/
def daysBeforeMonth (leap : Bool) (m : Nat) : Nat :=
  let l : Nat := if leap then 1 else 0
  match m with
  | 1 => 0
  | 2 => 31
  | 3 => 59 + l
  | 4 => 90 + l
  | 5 => 120 + l
  | 6 => 151 + l
  | 7 => 181 + l
  | 8 => 212 + l
  | 9 => 243 + l
  | 10 => 273 + l
  | 11 => 304 + l
  | 12 => 334 + l
  | 13 => 365 + l
  | _ => 0

/-- Number of days before January 1st of year `y`
(`datetime._days_before_year`). -/
def daysBeforeYear (y : Nat) : Nat :=
  365 * (y - 1) + (y - 1) / 4 - (y - 1) / 100 + (y - 1) / 400

/-- The proleptic-Gregorian ordinal of a date (`datetime.toordinal`):
0001-01-01 has ordinal 1.  Chronological comparison of `datetime` values
coincides with comparison of ordinals. -/
def Date.toOrdinal (d : Date) : Nat :=
  daysBeforeYear d.year + daysBeforeMonth (isLeap d.year) d.month + d.day

/-- The invariant a Python `datetime` date enforces by construction:
`MINYEAR = 1`, `MAXYEAR = 9999`, month in 1..12, day in 1..month length. -/
def Date.Valid (d : Date) : Prop :=
  1 ≤ d.year ∧ d.year ≤ 9999 ∧ 1 ≤ d.month ∧ d.month ≤ 12 ∧
    1 ≤ d.day ∧ d.day ≤ daysInMonth d.year d.month

instance (d : Date) : Decidable d.Valid := by
  unfold Date.Valid; infer_instance

/-- A date together with the `datetime` invariant: the embedding of an
actual Python `datetime` value. -/
def VDate := {d : Date // d.Valid}

instance : DecidableEq VDate := Subtype.instDecidableEq

/-- The ordinal of `datetime.max`'s date, 9999-12-31. -/
def maxOrdinal : Nat := Date.toOrdinal ⟨9999, 12, 31⟩

/-- The calendar successor of a date, the date part of
`d + timedelta(days=1)` for valid `d`. -/
def nextDay (d : Date) : Date :=
  if d.day < daysInMonth d.year d.month then ⟨d.year, d.month, d.day + 1⟩
  else if d.month < 12 then ⟨d.year, d.month + 1, 1⟩
  else ⟨d.year + 1, 1, 1⟩

/- =================== Arithmetic facts about the calendar ================ -/

theorem isLeap_iff (y : Nat) :
    isLeap y = true ↔ ((y % 4 = 0 ∧ ¬ y % 100 = 0) ∨ y % 400 = 0) := by
  simp [isLeap]

theorem daysBeforeMonth_succ (l : Bool) (m : Nat) (h1 : 1 ≤ m) (h12 : m ≤ 12) :
    daysBeforeMonth l (m + 1) = daysBeforeMonth l m + monthLen l m := by
  cases l <;> interval_cases m <;> decide

theorem daysBeforeMonth_le (l : Bool) (m1 m2 : Nat) (h : m1 ≤ m2) (h13 : m2 ≤ 13) :
    daysBeforeMonth l m1 ≤ daysBeforeMonth l m2 := by
  cases l <;> interval_cases m2 <;> interval_cases m1 <;> decide

theorem monthLen_pos (l : Bool) (m : Nat) (h1 : 1 ≤ m) (h12 : m ≤ 12) :
    1 ≤ monthLen l m := by
  cases l <;> interval_cases m <;> decide

theorem daysBeforeMonth_one (l : Bool) : daysBeforeMonth l 1 = 0 := by
  cases l <;> rfl

theorem daysBeforeYear_succ (y : Nat) (hy : 1 ≤ y) :
    daysBeforeYear (y + 1) =
      daysBeforeYear y + 365 + (if isLeap y then 1 else 0) := by
  obtain ⟨a, rfl⟩ : ∃ a, y = a + 1 := ⟨y - 1, by omega⟩
  have hiff := isLeap_iff (a + 1)
  unfold daysBeforeYear
  simp only [Nat.add_sub_cancel]
  rw [Nat.succ_div a 4, Nat.succ_div a 100, Nat.succ_div a 400]
  cases hI : isLeap (a + 1)
  · rw [hI] at hiff
    rw [if_neg Bool.false_ne_true]
    have hc : ¬ (((a + 1) % 4 = 0 ∧ ¬ (a + 1) % 100 = 0) ∨ (a + 1) % 400 = 0) :=
      fun h => Bool.false_ne_true (hiff.mpr h)
    by_cases h4 : 4 ∣ (a + 1) <;> by_cases h100 : 100 ∣ (a + 1) <;>
      by_cases h400 : 400 ∣ (a + 1) <;>
      simp [h4, h100, h400] <;> omega
  · rw [hI] at hiff
    rw [if_pos rfl]
    have hc : ((a + 1) % 4 = 0 ∧ ¬ (a + 1) % 100 = 0) ∨ (a + 1) % 400 = 0 :=
      hiff.mp rfl
    by_cases h4 : 4 ∣ (a + 1) <;> by_cases h100 : 100 ∣ (a + 1) <;>
      by_cases h400 : 400 ∣ (a + 1) <;>
      simp [h4, h100, h400] <;> omega

theorem daysBeforeYear_mono (y1 y2 : Nat) (h1 : 1 ≤ y1) (h : y1 ≤ y2) :
    daysBeforeYear y1 ≤ daysBeforeYear y2 := by
  induction y2, h using Nat.le_induction with
  | base => exact Nat.le_refl _
  | succ n hn ih =>
    have hs := daysBeforeYear_succ n (by omega)
    refine Nat.le_trans ih ?_
    cases hI : isLeap n <;> simp [hI] at hs <;> omega

theorem toOrdinal_year_bounds (d : Date) (h : d.Valid) :
    daysBeforeYear d.year + 1 ≤ d.toOrdinal ∧
      d.toOrdinal ≤ daysBeforeYear d.year + 365 + (if isLeap d.year then 1 else 0) := by
  obtain ⟨hy1, hy2, hm1, hm2, hd1, hd2⟩ := h
  unfold Date.toOrdinal
  constructor
  · omega
  · have h1 : daysBeforeMonth (isLeap d.year) d.month + monthLen (isLeap d.year) d.month
        = daysBeforeMonth (isLeap d.year) (d.month + 1) :=
      (daysBeforeMonth_succ _ _ hm1 hm2).symm
    have h2 : daysBeforeMonth (isLeap d.year) (d.month + 1)
        ≤ daysBeforeMonth (isLeap d.year) 13 :=
      daysBeforeMonth_le _ _ _ (by omega) (by omega)
    have h3 : daysBeforeMonth (isLeap d.year) 13 = 365 + (if isLeap d.year then 1 else 0) := by
      cases hI : isLeap d.year <;> simp [daysBeforeMonth]
    unfold daysInMonth at hd2
    omega

theorem toOrdinal_lt_of_year_lt (d1 d2 : Date) (h1 : d1.Valid) (h2 : d2.Valid)
    (h : d1.year < d2.year) : d1.toOrdinal < d2.toOrdinal := by
  have hub := (toOrdinal_year_bounds d1 h1).2
  have hlb := (toOrdinal_year_bounds d2 h2).1
  have hs := daysBeforeYear_succ d1.year h1.1
  have hm := daysBeforeYear_mono (d1.year + 1) d2.year (by omega) (by omega)
  cases hI : isLeap d1.year <;> simp [hI] at hub hs <;> omega

theorem toOrdinal_lt_of_month_lt (d1 d2 : Date) (h1 : d1.Valid) (h2 : d2.Valid)
    (hy : d1.year = d2.year) (h : d1.month < d2.month) :
    d1.toOrdinal < d2.toOrdinal := by
  obtain ⟨hy1, hy2, hm1, hm2, hd1, hd2⟩ := h1
  obtain ⟨ky1, ky2, km1, km2, kd1, kd2⟩ := h2
  unfold Date.toOrdinal
  rw [hy]
  have hstep : daysBeforeMonth (isLeap d2.year) (d1.month + 1)
      = daysBeforeMonth (isLeap d2.year) d1.month + monthLen (isLeap d2.year) d1.month :=
    daysBeforeMonth_succ _ _ hm1 (by omega)
  have hmono : daysBeforeMonth (isLeap d2.year) (d1.month + 1)
      ≤ daysBeforeMonth (isLeap d2.year) d2.month :=
    daysBeforeMonth_le _ _ _ (by omega) (by omega)
  unfold daysInMonth at hd2
  rw [hy] at hd2
  omega

theorem toOrdinal_inj (d1 d2 : Date) (h1 : d1.Valid) (h2 : d2.Valid)
    (h : d1.toOrdinal = d2.toOrdinal) : d1 = d2 := by
  have hy : d1.year = d2.year := by
    rcases Nat.lt_trichotomy d1.year d2.year with hlt | heq | hgt
    · exact absurd h (Nat.ne_of_lt (toOrdinal_lt_of_year_lt d1 d2 h1 h2 hlt))
    · exact heq
    · exact absurd h.symm (Nat.ne_of_lt (toOrdinal_lt_of_year_lt d2 d1 h2 h1 hgt))
  have hm : d1.month = d2.month := by
    rcases Nat.lt_trichotomy d1.month d2.month with hlt | heq | hgt
    · exact absurd h (Nat.ne_of_lt (toOrdinal_lt_of_month_lt d1 d2 h1 h2 hy hlt))
    · exact heq
    · exact absurd h.symm (Nat.ne_of_lt (toOrdinal_lt_of_month_lt d2 d1 h2 h1 hy.symm hgt))
  have hd : d1.day = d2.day := by
    unfold Date.toOrdinal at h
    rw [hy, hm] at h
    omega
  cases d1; cases d2
  simp only [Date.mk.injEq]
  exact ⟨hy, hm, hd⟩

theorem nextDay_valid (d : Date) (h : d.Valid) (hy : (nextDay d).year ≤ 9999) :
    (nextDay d).Valid := by
  obtain ⟨hy1, hy2, hm1, hm2, hd1, hd2⟩ := h
  unfold nextDay at hy ⊢
  by_cases hc1 : d.day < daysInMonth d.year d.month
  · simp only [if_pos hc1] at hy ⊢
    unfold Date.Valid
    dsimp only
    exact ⟨hy1, hy2, hm1, hm2, by omega, by omega⟩
  · simp only [if_neg hc1] at hy ⊢
    by_cases hc2 : d.month < 12
    · simp only [if_pos hc2] at hy ⊢
      unfold Date.Valid daysInMonth
      dsimp only
      refine ⟨hy1, hy2, by omega, by omega, by omega, ?_⟩
      exact monthLen_pos _ _ (by omega) (by omega)
    · simp only [if_neg hc2] at hy ⊢
      unfold Date.Valid daysInMonth
      dsimp only
      refine ⟨by omega, hy, by omega, by omega, by omega, ?_⟩
      exact monthLen_pos _ _ (by omega) (by omega)

theorem toOrdinal_nextDay (d : Date) (h : d.Valid) :
    (nextDay d).toOrdinal = d.toOrdinal + 1 := by
  obtain ⟨hy1, hy2, hm1, hm2, hd1, hd2⟩ := h
  unfold nextDay
  by_cases hc1 : d.day < daysInMonth d.year d.month
  · simp only [if_pos hc1]
    unfold Date.toOrdinal
    dsimp only
    omega
  · simp only [if_neg hc1]
    have hde : d.day = daysInMonth d.year d.month := by omega
    by_cases hc2 : d.month < 12
    · simp only [if_pos hc2]
      unfold Date.toOrdinal
      dsimp only
      have hstep := daysBeforeMonth_succ (isLeap d.year) d.month hm1 hm2
      unfold daysInMonth at hde
      omega
    · simp only [if_neg hc2]
      have hm12 : d.month = 12 := by omega
      have hd31 : d.day = 31 := by
        rw [hde, hm12]
        unfold daysInMonth
        cases hI : isLeap d.year <;> rfl
      unfold Date.toOrdinal
      dsimp only
      rw [hm12, hd31, daysBeforeMonth_one]
      have hs := daysBeforeYear_succ d.year hy1
      have h12 : daysBeforeMonth (isLeap d.year) 12 = 334 + (if isLeap d.year then 1 else 0) := by
        cases hI : isLeap d.year <;> simp [daysBeforeMonth]
      omega

/- ===================== generate_dates (src/monitor.py:70) =============== -/

/-- The embedding of `current += timedelta(days=1)`: Python raises
`OverflowError` when the result would pass `datetime.max` (year 9999), which
is modelled as `none`. -/
def addOneDay (d : VDate) : Option VDate :=
  if h : (nextDay d.1).year ≤ 9999 then some ⟨nextDay d.1, nextDay_valid d.1 d.2 h⟩
  else none

theorem addOneDay_ord (d nxt : VDate) (h : addOneDay d = some nxt) :
    nxt.1.toOrdinal = d.1.toOrdinal + 1 := by
  unfold addOneDay at h
  by_cases hc : (nextDay d.1).year ≤ 9999
  · rw [dif_pos hc] at h
    have : nxt.1 = nextDay d.1 := by
      cases h
      rfl
    rw [this]
    exact toOrdinal_nextDay d.1 d.2
  · rw [dif_neg hc] at h
    exact absurd h (by simp)

theorem addOneDay_isSome (d : VDate) (h : d.1.toOrdinal < maxOrdinal) :
    ∃ nxt, addOneDay d = some nxt := by
  unfold addOneDay
  by_cases hc : (nextDay d.1).year ≤ 9999
  · exact ⟨_, dif_pos hc⟩
  · exfalso
    obtain ⟨hy1, hy2, hm1, hm2, hd1, hd2⟩ := d.2
    unfold nextDay at hc
    by_cases hc1 : d.1.day < daysInMonth d.1.year d.1.month
    · rw [if_pos hc1] at hc
      exact hc hy2
    · rw [if_neg hc1] at hc
      by_cases hc2 : d.1.month < 12
      · rw [if_pos hc2] at hc
        exact hc hy2
      · rw [if_neg hc2] at hc
        dsimp only at hc
        have hy : d.1.year = 9999 := by omega
        have hm : d.1.month = 12 := by omega
        have hd : d.1.day = 31 := by
          have : daysInMonth d.1.year d.1.month = 31 := by
            rw [hy, hm]; rfl
          omega
        have : d.1 = ⟨9999, 12, 31⟩ := by
          cases hde : d.1
          simp only [Date.mk.injEq]
          rw [hde] at hy hm hd
          exact ⟨hy, hm, hd⟩
        have hord : d.1.toOrdinal = maxOrdinal := by
          rw [this]; rfl
        omega

/-- The date-walking loop of `generate_dates` (src/monitor.py:74-78):
starting from `cur`, append the current date and step one day forward while
`current <= end`; a `none` result models the `OverflowError` that
`current += timedelta(days=1)` raises past 9999-12-31.  `datetime`
comparison is chronological, i.e. comparison of ordinals. -/
def genDates (e : Date) (cur : VDate) : Option (List Date) :=
  if hle : cur.1.toOrdinal ≤ e.toOrdinal then
    match hnx : addOneDay cur with
    | some nxt => Option.map (fun l => cur.1 :: l) (genDates e nxt)
    | none => none
  else some []
termination_by e.toOrdinal + 1 - cur.1.toOrdinal
decreasing_by
  have := addOneDay_ord cur nxt hnx
  omega

theorem genDates_stop (e : Date) (cur : VDate) (h : ¬ cur.1.toOrdinal ≤ e.toOrdinal) :
    genDates e cur = some [] := by
  rw [genDates]
  rw [dif_neg h]

theorem genDates_step (e : Date) (cur nxt : VDate) (hle : cur.1.toOrdinal ≤ e.toOrdinal)
    (hnx : addOneDay cur = some nxt) :
    genDates e cur = Option.map (fun l => cur.1 :: l) (genDates e nxt) := by
  rw [genDates]
  rw [dif_pos hle, hnx]

theorem genDates_overflow (e : Date) (cur : VDate) (hle : cur.1.toOrdinal ≤ e.toOrdinal)
    (hnx : addOneDay cur = none) : genDates e cur = none := by
  rw [genDates]
  rw [dif_pos hle, hnx]

/-- The list `[s, s+1, ..., s+n-1]`, chronological coordinates of a
contiguous block of days. -/
def natRange : Nat → Nat → List Nat
  | _, 0 => []
  | s, n + 1 => s :: natRange (s + 1) n

theorem mem_natRange (x : Nat) : ∀ (n s : Nat), x ∈ natRange s n ↔ s ≤ x ∧ x < s + n := by
  intro n
  induction n with
  | zero => intro s; simp [natRange]
  | succ k ih =>
    intro s
    simp only [natRange, List.mem_cons, ih (s + 1)]
    omega

theorem natRange_nodup : ∀ (n s : Nat), (natRange s n).Nodup := by
  intro n
  induction n with
  | zero => intro s; simp [natRange]
  | succ k ih =>
    intro s
    simp only [natRange, List.nodup_cons]
    refine ⟨?_, ih (s + 1)⟩
    rw [mem_natRange]
    omega

theorem genDates_sound (e : Date) (hmax : e.toOrdinal < maxOrdinal) :
    ∀ (n : Nat) (cur : VDate), e.toOrdinal + 1 - cur.1.toOrdinal = n →
      cur.1.toOrdinal ≤ e.toOrdinal →
      ∃ L, genDates e cur = some L ∧
        L.map Date.toOrdinal = natRange cur.1.toOrdinal (e.toOrdinal + 1 - cur.1.toOrdinal) ∧
        ∀ d ∈ L, d.Valid := by
  intro n
  induction n using Nat.strong_induction_on with
  | _ n ih =>
    intro cur hn hle
    obtain ⟨nxt, hnx⟩ := addOneDay_isSome cur (by omega)
    have hord := addOneDay_ord cur nxt hnx
    rw [genDates_step e cur nxt hle hnx]
    by_cases h2 : nxt.1.toOrdinal ≤ e.toOrdinal
    · obtain ⟨L, hL, hmap, hval⟩ := ih (e.toOrdinal + 1 - nxt.1.toOrdinal) (by omega) nxt rfl h2
      refine ⟨cur.1 :: L, by rw [hL]; rfl, ?_, ?_⟩
      · have hk : e.toOrdinal + 1 - cur.1.toOrdinal = (e.toOrdinal + 1 - nxt.1.toOrdinal) + 1 := by
          omega
        rw [hk]
        simp only [List.map_cons, natRange]
        rw [hmap, hord]
      · intro d hd
        rcases List.mem_cons.mp hd with hd | hd
        · rw [hd]; exact cur.2
        · exact hval d hd
    · have hstop : genDates e nxt = some [] := genDates_stop e nxt h2
      rw [hstop]
      refine ⟨[cur.1], rfl, ?_, ?_⟩
      · have hk : e.toOrdinal + 1 - cur.1.toOrdinal = 1 := by omega
        rw [hk]
        rfl
      · intro d hd
        rcases List.mem_cons.mp hd with hd | hd
        · rw [hd]; exact cur.2
        · exact absurd hd (List.not_mem_nil d)

theorem genDates_mem (e : Date) (cur : VDate) (hmax : e.toOrdinal < maxOrdinal)
    (hle : cur.1.toOrdinal ≤ e.toOrdinal) (L : List Date) (hL : genDates e cur = some L)
    (d : Date) (hd : d.Valid) :
    d ∈ L ↔ cur.1.toOrdinal ≤ d.toOrdinal ∧ d.toOrdinal ≤ e.toOrdinal := by
  obtain ⟨L2, hL2, hmap, hval⟩ := genDates_sound e hmax _ cur rfl hle
  rw [hL] at hL2
  have hLeq : L = L2 := by
    cases hL2
    rfl
  subst hLeq
  constructor
  · intro hmem
    have : d.toOrdinal ∈ L.map Date.toOrdinal := List.mem_map_of_mem Date.toOrdinal hmem
    rw [hmap, mem_natRange] at this
    omega
  · intro ⟨hb1, hb2⟩
    have : d.toOrdinal ∈ L.map Date.toOrdinal := by
      rw [hmap, mem_natRange]
      omega
    obtain ⟨x, hx, hxo⟩ := List.mem_map.mp this
    have : x = d := toOrdinal_inj x d (hval x hx) hd hxo
    rw [← this]
    exact hx

/-- Split a character list at every occurrence of the dash character, the
decomposition that the `"%Y-%m-%d"` format of `datetime.strptime` imposes
on its input. -/
def splitDash : List Char → List (List Char)
  | [] => [[]]
  | c :: rest =>
    match splitDash rest with
    | [] => [[]]
    | g :: gs => if c = '-' then [] :: g :: gs else (c :: g) :: gs

/-- Numeric value of a digit string. -/
def digitsVal (l : List Char) : Nat :=
  l.foldl (fun acc c => acc * 10 + (c.toNat - 48)) 0

/-- The embedding of `datetime.strptime(s, "%Y-%m-%d")`
(src/monitor.py:72-73): `%Y` matches exactly four digits, `%m` and `%d`
match one or two digits with values in 1..12 resp. 1..31, and the
`datetime` constructor then checks `MINYEAR <= year <= MAXYEAR` and
`day <= days_in_month`.  A raised `ValueError` is modelled as `none`. -/
def parseDate (s : String) : Option VDate :=
  match splitDash s.data with
  | [ys, ms, ds] =>
    if ys.length = 4 ∧ ys.all Char.isDigit = true ∧
        1 ≤ ms.length ∧ ms.length ≤ 2 ∧ ms.all Char.isDigit = true ∧
        1 ≤ ds.length ∧ ds.length ≤ 2 ∧ ds.all Char.isDigit = true then
      if h : 1 ≤ digitsVal ys ∧ digitsVal ys ≤ 9999 ∧
          1 ≤ digitsVal ms ∧ digitsVal ms ≤ 12 ∧
          1 ≤ digitsVal ds ∧ digitsVal ds ≤ daysInMonth (digitsVal ys) (digitsVal ms) then
        some ⟨⟨digitsVal ys, digitsVal ms, digitsVal ds⟩, h⟩
      else none
    else none
  | _ => none

/-- Zero-pad a numeral to width `w`, as `strftime` does. -/
def padZeros (w : Nat) (s : String) : String :=
  String.mk (List.replicate (w - s.data.length) '0') ++ s

/-- The embedding of `current.strftime("%Y-%m-%d")` (src/monitor.py:77). -/
def formatDate (d : Date) : String :=
  padZeros 4 (toString d.year) ++ "-" ++ padZeros 2 (toString d.month) ++ "-" ++
    padZeros 2 (toString d.day)

/-- `generate_dates` (src/monitor.py:70-79): parse both bounds, walk the
days from start to end inclusive, and render each day back to a string.
`none` models a raised exception (`ValueError` from `strptime` on a
malformed bound, or `OverflowError` from the increment past 9999-12-31). -/
def generate_dates (start_date end_date : String) : Option (List String) :=
  match parseDate start_date, parseDate end_date with
  | some s, some e => Option.map (List.map formatDate) (genDates e.1 s)
  | _, _ => none

/- ============ Weekday filter (spec §4.1; not present in src/) =========== -/

/-- Modelled from the spec: the weekday ordinal (Monday = 0 .. Sunday = 6)
of a date, as `datetime.weekday()` computes it; the repository's source has
no weekday computation, so this is taken from the spec's data model
(`ScanWindow` weekday filter, §3 and §4.1). -/
def weekday (d : Date) : Nat := (d.toOrdinal + 6) % 7

/-- Modelled from the spec: `generate` with the optional weekday filter of
`ScanWindow` (§4.1): every calendar day from start to end inclusive is
walked; if the filter is empty or absent every day is included, otherwise a
day is included only if its weekday ordinal is a member of the filter.  The
repository's `generate_dates` has no such filter, so this definition
follows the spec's words on top of the embedded date walk. -/
def genDatesFiltered (e : Date) (s : VDate) (ws : List Nat) : Option (List Date) :=
  Option.map
    (fun L => if ws.isEmpty then L else L.filter (fun d => decide (weekday d ∈ ws)))
    (genDates e s)

/- ============== check_availability (src/monitor.py:82-174) ============== -/

/-- A DOM element, reduced to the inner text that the code extracts. -/
structure Element where
  innerText : String
deriving DecidableEq

/-- The embedding of the rendered Playwright page a probe sees.
`fetch_fails` is true when `page.goto` / the waits / the text extraction
raise (navigation error, timeout); `body_text` is
`page.inner_text("body")`; `query` gives the elements returned by
`page.query_selector_all` for each selector string. -/
structure Page where
  fetch_fails : Bool
  body_text : String
  query : String → List Element

/-- True when `needle` starts `hay`. -/
def beginsWith : List Char → List Char → Bool
  | [], _ => true
  | _ :: _, [] => false
  | c :: cs, d :: ds => c == d && beginsWith cs ds

/-- True when `needle` occurs contiguously inside `hay`: the embedding of
Python's `in` operator on strings. -/
def hasSub (needle : List Char) : List Char → Bool
  | [] => needle.isEmpty
  | c :: rest => beginsWith needle (c :: rest) || hasSub needle rest

/-- `s.lower()` as a character list.  `Char.toLower` lowercases ASCII
letters; every phrase the code compares is ASCII or Arabic (caseless), so
this matches Python `str.lower` on the relevant alphabet. -/
def lowerData (s : String) : List Char := s.data.map Char.toLower

/-- The fixed list of "no availability" phrases (src/monitor.py:99-107). -/
def no_availability_indicators : List String :=
  ["no trips available",
   "no trains available",
   "no results",
   "لا توجد رحلات",
   "غير متوفر",
   "sold out",
   "no seats available"]

/-- The trip-card selectors tried in order (src/monitor.py:115-122). -/
def trip_selectors : List String :=
  [".trip-card",
   ".journey-card",
   ".train-result",
   "[class*=\x27trip\x27]",
   "[class*=\x27journey\x27]",
   ".available-trip"]

/-- The book-button selector (src/monitor.py:149). -/
def book_button_selector : String :=
  "button:has-text(\x27Book\x27), button:has-text(\x27احجز\x27), a:has-text(\x27Book\x27)"

/-- The price-element selector (src/monitor.py:160). -/
def price_selector : String :=
  "[class*=\x27price\x27], [class*=\x27fare\x27], .sar-price"

/-- The dict returned on a positive classification (src/monitor.py:129-134):
date, route name, url, element count, optional details text. -/
structure TripInfo where
  date : String
  route : String
  url : String
  count : Nat
  details : Option String
deriving DecidableEq

/-- The loop over `trip_selectors` (src/monitor.py:124-146): the first
selector whose query returns a non-empty element list wins. -/
def findTrips (page : Page) : List String → Option (List Element)
  | [] => none
  | sel :: rest =>
    let trips := page.query sel
    if 0 < trips.length then some trips else findTrips page rest

/-- `trip_text[:500]` of the first matched element (src/monitor.py:137-140). -/
def tripDetails (trips : List Element) : Option String :=
  match trips with
  | [] => none
  | t :: _ => some (String.mk (t.innerText.data.take 500))

/-- `check_availability` (src/monitor.py:82-174).  The outer
`try/except` catches every exception and returns `None`, so a failed fetch
is `none`.  Otherwise: if any lower-cased "no availability" indicator occurs
in the lower-cased page text, return `None`; else try the trip-card
selectors, then the book-button selector, then the price selector; if a
query is non-empty build the trip dict; else return `None`. -/
def check_availability (page : Page) (url route_name date : String) : Option TripInfo :=
  if page.fetch_fails then none
  else
    let page_text := page.body_text
    if no_availability_indicators.any (fun ind => hasSub (lowerData ind) (lowerData page_text)) then
      none
    else
      match findTrips page trip_selectors with
      | some trips => some ⟨date, route_name, url, trips.length, tripDetails trips⟩
      | none =>
        let book_buttons := page.query book_button_selector
        if 0 < book_buttons.length then
          some ⟨date, route_name, url, book_buttons.length,
            some "Book buttons found - tickets likely available"⟩
        else
          let price_elements := page.query price_selector
          if 0 < price_elements.length then
            some ⟨date, route_name, url, price_elements.length,
              some "Price elements found - tickets likely available"⟩
          else none

theorem check_availability_of_fetch_fails (page : Page) (u r dt : String)
    (h : page.fetch_fails = true) : check_availability page u r dt = none := by
  unfold check_availability
  rw [if_pos h]

theorem findTrips_empty (page : Page) (h : ∀ sel, page.query sel = []) :
    ∀ sels, findTrips page sels = none := by
  intro sels
  induction sels with
  | nil => rfl
  | cons sel rest ih =>
    unfold findTrips
    rw [h sel]
    simpa using ih

theorem check_availability_default (page : Page) (u r dt : String)
    (hneg : no_availability_indicators.any
      (fun ind => hasSub (lowerData ind) (lowerData page.body_text)) = false)
    (hq : ∀ sel, page.query sel = []) :
    check_availability page u r dt = none := by
  unfold check_availability
  by_cases hf : page.fetch_fails
  · rw [if_pos hf]
  · rw [if_neg hf, if_neg (by rw [hneg]; exact Bool.false_ne_true)]
    rw [findTrips_empty page hq trip_selectors]
    rw [hq book_button_selector]
    rw [hq price_selector]
    rfl

/- ================ build_search_url (src/monitor.py:48-67) =============== -/

/-- `build_search_url`: the fixed base path followed by the query
parameters joined with `&` in the dict's insertion order
(src/monitor.py:50-67). -/
def build_search_url (from_station to_station date direction : String) : String :=
  "https://tickets.sar.com.sa/select-trip?DepartureStation=" ++ from_station ++
    "&ArrivalStation=" ++ to_station ++
    "&DepartureDateString=" ++ date ++
    "&AdultCount=1&ChildCount=0&InfantCount=0&DisabledCount=0&CarerCount=0" ++
    "&passengersCount=1&Lang=en&serviceType=1&WithCarCargo=false&TripDirection=" ++
    direction

/- =================== Scan orchestration (src/monitor.py:296-399) ======== -/

/-- One route block of the `CONFIG` table (src/monitor.py:22-43). -/
structure RouteCfg where
  from_station : String
  to_station : String
  from_name : String
  to_name : String
  start_date : String
  end_date : String
  direction : String

/-- `CONFIG["outbound"]` (src/monitor.py:24-32). -/
def outboundCfg : RouteCfg :=
  ⟨"RIY", "QUR", "Riyadh", "Qurayyat", "2025-03-03", "2025-03-20", "N"⟩

/-- `CONFIG["return"]` (src/monitor.py:34-42). -/
def returnCfg : RouteCfg :=
  ⟨"QUR", "RIY", "Qurayyat", "Riyadh", "2025-03-23", "2025-04-02", "N"⟩

/-- The URL built for one probed date of a route (src/monitor.py:331-336). -/
def route_url (cfg : RouteCfg) (date : String) : String :=
  build_search_url cfg.from_station cfg.to_station date cfg.direction

/-- The route display name passed to `check_availability`
(src/monitor.py:341). -/
def route_label (cfg : RouteCfg) : String :=
  cfg.from_name ++ " → " ++ cfg.to_name

/-- One probe of one date: build the URL and classify the page fetched for
it.  `env` maps each URL to the page the shared browser session renders
for it. -/
def probeOne (env : String → Page) (cfg : RouteCfg) (date : String) : Option TripInfo :=
  check_availability (env (route_url cfg date)) (route_url cfg date) (route_label cfg) date

/-- Externally visible actions of the scan loop, in order: `fetch url` is
the `page.goto` of a probe (successful or failed), `delay ms` is
`page.wait_for_timeout` — in particular the unconditional 2000 ms pacing
delay at the end of each loop iteration (src/monitor.py:352, 384). -/
inductive Event where
  | fetch (url : String)
  | delay (ms : Nat)
deriving DecidableEq

def Event.isFetch : Event → Bool
  | fetch _ => true
  | _ => false

def Event.isDelay : Event → Bool
  | delay _ => true
  | _ => false

/-- One date loop of `main` (src/monitor.py:330-352 and 363-384): probe
each date in order, append positive results to the accumulated
`available_trips`, and emit the probe's fetch followed by the fixed 2000 ms
pacing delay; the delay is at the end of the loop body, outside any
conditional, so it runs whether or not the probe succeeded. -/
def scan_dates (env : String → Page) (cfg : RouteCfg) :
    List String → List TripInfo → List TripInfo × List Event
  | [], acc => (acc, [])
  | date :: rest, acc =>
    let nextAcc :=
      match probeOne env cfg date with
      | some t => acc ++ [t]
      | none => acc
    ((scan_dates env cfg rest nextAcc).1,
      Event.fetch (route_url cfg date) :: Event.delay 2000 ::
        (scan_dates env cfg rest nextAcc).2)

/-- `main` (src/monitor.py:296-399): generate the outbound dates, scan
them, then generate the return dates and scan them with the accumulated
list.  `CONFIG`'s dates always parse, so the `getD []` default is never
taken. -/
def run_scan (env : String → Page) : List TripInfo × List Event :=
  let outDates := (generate_dates outboundCfg.start_date outboundCfg.end_date).getD []
  let retDates := (generate_dates returnCfg.start_date returnCfg.end_date).getD []
  let out := scan_dates env outboundCfg outDates []
  let ret := scan_dates env returnCfg retDates out.1
  (ret.1, out.2 ++ ret.2)

theorem scan_dates_records (env : String → Page) (cfg : RouteCfg) :
    ∀ (dates : List String) (acc : List TripInfo),
      (scan_dates env cfg dates acc).1 = acc ++ dates.filterMap (probeOne env cfg) := by
  intro dates
  induction dates with
  | nil => intro acc; simp [scan_dates]
  | cons date rest ih =>
    intro acc
    unfold scan_dates
    cases hp : probeOne env cfg date <;>
      simp [hp, ih, List.filterMap_cons]

/- ==================== send_email (src/monitor.py:208-293) =============== -/

/-- An SMTP delivery attempt: host smtp.gmail.com with the given port,
either `SMTP_SSL` or `SMTP` followed by `starttls`. -/
inductive SmtpAttempt where
  | sslPort (port : Nat)
  | tlsPort (port : Nat)
deriving DecidableEq

/-- How `send_email` returns: all paths return normally (`None`), so the
outcome is which branch printed/sent. -/
inductive EmailOutcome where
  | printedResults
  | sentSSL
  | sentTLS
  | failedBoth
deriving DecidableEq

/-- Credential and transport environment of `send_email`: the environment
variables and whether each SMTP handshake+send succeeds. -/
structure EmailEnv where
  sender_email : Option String
  sender_password : Option String
  ssl_ok : Bool
  tls_ok : Bool

/-- Python truthiness of `os.environ.get(...)`: `None` and the empty
string are falsy. -/
def truthy : Option String → Bool
  | none => false
  | some s => !(s == "")

/-- `send_email` (src/monitor.py:208-293): with missing/empty credentials
the results are printed and no SMTP attempt is made; otherwise one
`SMTP_SSL` attempt on port 465, and only if it raises, one `SMTP`+`starttls`
attempt on port 587; a second failure is printed and the function still
returns normally.  The returned list is the ordered SMTP attempt trace. -/
def send_email (env : EmailEnv) (available_trips : List TripInfo) :
    EmailOutcome × List SmtpAttempt :=
  if truthy env.sender_email && truthy env.sender_password then
    if env.ssl_ok then (EmailOutcome.sentSSL, [SmtpAttempt.sslPort 465])
    else if env.tls_ok then
      (EmailOutcome.sentTLS, [SmtpAttempt.sslPort 465, SmtpAttempt.tlsPort 587])
    else (EmailOutcome.failedBoth, [SmtpAttempt.sslPort 465, SmtpAttempt.tlsPort 587])
  else (EmailOutcome.printedResults, [])

/- ==================== Pacing of the scan trace ========================== -/

/-- Every fetch event that is not the last event of the trace is
immediately followed by a delay event: consecutive fetch attempts are
always separated by the pacing delay. -/
def PacedP (tr : List Event) : Prop :=
  ∀ (i : Nat) (h1 : i < tr.length) (h2 : i + 1 < tr.length),
    (tr.get ⟨i, h1⟩).isFetch = true → (tr.get ⟨i + 1, h2⟩).isDelay = true

theorem pacedP_nil : PacedP [] := by
  intro i h1
  exact absurd h1 (by simp)

theorem pacedP_cons2 (u : String) (m : Nat) (rest : List Event) (h : PacedP rest) :
    PacedP (Event.fetch u :: Event.delay m :: rest) := by
  intro i h1 h2 hf
  match i with
  | 0 => rfl
  | 1 =>
    exact absurd hf (by simp [List.get, Event.isFetch])
  | (j + 2) =>
    simp only [List.length_cons] at h1 h2
    simp only [List.get_cons_succ] at hf ⊢
    exact h j (by omega) (by omega) hf

theorem scan_dates_trace_paced (env : String → Page) (cfg : RouteCfg) :
    ∀ (dates : List String) (acc : List TripInfo) (tail : List Event),
      PacedP tail → PacedP ((scan_dates env cfg dates acc).2 ++ tail) := by
  intro dates
  induction dates with
  | nil =>
    intro acc tail h
    simpa [scan_dates] using h
  | cons date rest ih =>
    intro acc tail h
    unfold scan_dates
    dsimp only
    rw [List.cons_append, List.cons_append]
    exact pacedP_cons2 _ _ _ (ih _ tail h)

/- ============== Ampersand-splitting facts for the URL =================== -/

theorem cancelPre : ∀ (p xs ys : List Char), p ++ xs = p ++ ys → xs = ys := by
  intro p
  induction p with
  | nil => intro xs ys h; exact h
  | cons c cs ih =>
    intro xs ys h
    simp only [List.cons_append, List.cons.injEq] at h
    exact ih xs ys h.2

theorem amp_split : ∀ (a1 a2 r1 r2 : List Char), '&' ∉ a1 → '&' ∉ a2 →
    a1 ++ '&' :: r1 = a2 ++ '&' :: r2 → a1 = a2 ∧ r1 = r2 := by
  intro a1
  induction a1 with
  | nil =>
    intro a2 r1 r2 h1 h2 heq
    cases a2 with
    | nil =>
      simp only [List.nil_append, List.cons.injEq] at heq
      exact ⟨rfl, heq.2⟩
    | cons c cs =>
      simp only [List.nil_append, List.cons_append, List.cons.injEq] at heq
      rw [← heq.1] at h2
      exact absurd (List.mem_cons_self '&' cs) h2
  | cons c cs ih =>
    intro a2 r1 r2 h1 h2 heq
    cases a2 with
    | nil =>
      simp only [List.cons_append, List.nil_append, List.cons.injEq] at heq
      rw [heq.1] at h1
      exact absurd (List.mem_cons_self '&' cs) h1
    | cons d ds =>
      simp only [List.cons_append, List.cons.injEq] at heq
      have hcs : '&' ∉ cs := fun hc => h1 (List.mem_cons_of_mem c hc)
      have hds : '&' ∉ ds := fun hc => h2 (List.mem_cons_of_mem d hc)
      obtain ⟨ha, hr⟩ := ih ds r1 r2 hcs hds heq.2
      exact ⟨by rw [heq.1, ha], hr⟩

theorem str_data_append (a b : String) : (a ++ b).data = a.data ++ b.data := by
  cases a
  cases b
  rfl

theorem string_data_inj (a b : String) (h : a.data = b.data) : a = b :=
  congrArg String.mk h

theorem build_url_data (f t d r : String) :
    (build_search_url f t d r).data =
      "https://tickets.sar.com.sa/select-trip?DepartureStation=".data ++
      (f.data ++ ('&' :: ("ArrivalStation=".data ++
      (t.data ++ ('&' :: ("DepartureDateString=".data ++
      (d.data ++ ('&' :: ("AdultCount=1&ChildCount=0&InfantCount=0&DisabledCount=0&CarerCount=0&passengersCount=1&Lang=en&serviceType=1&WithCarCargo=false&TripDirection=".data ++
      r.data))))))))) := by
  unfold build_search_url
  simp only [str_data_append, List.append_assoc]
  rfl

/- ========================= Claim theorems =============================== -/

/-- C1: if the page text contains (case-insensitively) any phrase of the
fixed "no availability" list, `check_availability` returns `none`
(Unavailable) immediately: the conclusion holds for every `page.query`
whatsoever, so no positive-looking DOM content (trip cards, book buttons,
price elements) can override the negative phrase, and no positive check
influences the result. -/
theorem C1_negative_short_circuit (page : Page) (url route_name date : String)
    (ind : String) (hmem : ind ∈ no_availability_indicators)
    (hsub : hasSub (lowerData ind) (lowerData page.body_text) = true) :
    check_availability page url route_name date = none := by
  unfold check_availability
  by_cases hf : page.fetch_fails
  · rw [if_pos hf]
  · rw [if_neg hf,
      if_pos (List.any_eq_true.mpr ⟨ind, hmem, hsub⟩)]

/-- C1 witness: a page whose text holds a negative phrase while every DOM
query returns a trip-card-like element is still classified `none`. -/
theorem C1_negative_short_circuit_witness :
    check_availability
      ⟨false, "Sorry, there are no trips available today", fun _ => [⟨"Train 76 21:00 SAR 250"⟩]⟩
      "u" "r" "2025-03-04" = none :=
  C1_negative_short_circuit
    ⟨false, "Sorry, there are no trips available today", fun _ => [⟨"Train 76 21:00 SAR 250"⟩]⟩
    "u" "r" "2025-03-04" "no trips available" (by decide) (by decide)

/-- C4 counterexample: the code has no "there is/are N trip(s) available"
text rule.  A successfully fetched page whose body text is exactly
"There are 3 trips available", with no matching DOM elements for any
selector, is classified `none` (Unavailable), not Available with reason
containing "3" as the claim states. -/
theorem C4_counterexample :
    check_availability ⟨false, "There are 3 trips available", fun _ => []⟩
      "u" "r" "2025-03-03" = none := by
  decide

/-- C4 (amended): in the code, positive classification comes only from DOM
selector queries, never from the page text.  With no negative phrase:
if every selector query is empty the result is `none` even when the text
announces available trips; and if the `.trip-card` query is non-empty the
result is Available with `count` equal to the number of matched elements
(the text pattern plays no role in either direction). -/
theorem C4_positive_from_dom_only (page : Page) (url route_name date : String) :
    ((no_availability_indicators.any
        (fun ind => hasSub (lowerData ind) (lowerData page.body_text))) = false →
      (∀ sel, page.query sel = []) →
      check_availability page url route_name date = none) ∧
    (page.fetch_fails = false →
      (no_availability_indicators.any
        (fun ind => hasSub (lowerData ind) (lowerData page.body_text))) = false →
      0 < (page.query ".trip-card").length →
      check_availability page url route_name date =
        some ⟨date, route_name, url, (page.query ".trip-card").length,
          tripDetails (page.query ".trip-card")⟩) := by
  constructor
  · intro hneg hq
    exact check_availability_default page url route_name date hneg hq
  · intro hf hneg hpos
    unfold check_availability
    rw [if_neg (by rw [hf]; exact Bool.false_ne_true),
      if_neg (by rw [hneg]; exact Bool.false_ne_true)]
    have htrips : findTrips page trip_selectors = some (page.query ".trip-card") := by
      unfold trip_selectors findTrips
      rw [if_pos hpos]
    rw [htrips]

/-- C4 witness: with text "There are 3 trips available" the classifier
returns `none` when all queries are empty, and returns the trip dict built
from the DOM when a trip card is present. -/
theorem C4_positive_from_dom_only_witness :
    check_availability ⟨false, "There are 3 trips available", fun _ => []⟩
        "u" "r" "2025-03-05" = none ∧
    check_availability ⟨false, "There are 3 trips available", fun _ => [⟨"Train 76"⟩]⟩
        "u" "r" "2025-03-05" =
      some ⟨"2025-03-05", "r", "u", 1, some "Train 76"⟩ :=
  ⟨(C4_positive_from_dom_only ⟨false, "There are 3 trips available", fun _ => []⟩
      "u" "r" "2025-03-05").1 (by decide) (fun _ => rfl),
   by
    have h := (C4_positive_from_dom_only
      ⟨false, "There are 3 trips available", fun _ => [⟨"Train 76"⟩]⟩
      "u" "r" "2025-03-05").2 rfl (by decide) (by decide)
    rw [h]
    decide⟩

/-- C8: the classifier is total and never raises.  Every exception on the
fetch/extraction path is caught and yields `none`; the empty page text with
no DOM matches yields `none`; and in general, when no negative phrase
matches and no positive rule (selector query) matches, the result is
`none` (Unavailable). -/
theorem C8_total_default_unavailable (page : Page) (url route_name date : String) :
    (page.fetch_fails = true → check_availability page url route_name date = none) ∧
    ((no_availability_indicators.any
        (fun ind => hasSub (lowerData ind) (lowerData page.body_text))) = false →
      (∀ sel, page.query sel = []) →
      check_availability page url route_name date = none) ∧
    (page.body_text = "" → (∀ sel, page.query sel = []) →
      check_availability page url route_name date = none) := by
  refine ⟨fun hf => check_availability_of_fetch_fails page url route_name date hf,
    fun hneg hq => check_availability_default page url route_name date hneg hq,
    fun hemp hq => ?_⟩
  refine check_availability_default page url route_name date ?_ hq
  rw [hemp]
  decide

/-- C8 witness: a failed fetch and an empty page both classify `none`. -/
theorem C8_total_default_unavailable_witness :
    check_availability ⟨true, "irrelevant", fun _ => []⟩ "u" "r" "2025-03-06" = none ∧
    check_availability ⟨false, "", fun _ => []⟩ "u" "r" "2025-03-06" = none :=
  ⟨(C8_total_default_unavailable ⟨true, "irrelevant", fun _ => []⟩ "u" "r" "2025-03-06").1 rfl,
   (C8_total_default_unavailable ⟨false, "", fun _ => []⟩ "u" "r" "2025-03-06").2.2 rfl
     (fun _ => rfl)⟩

/-- C5: a fetch failure for one date is recovered locally.  If the page
fetched for date `d` fails, the scan of `l1 ++ [d] ++ l2` collects exactly
the records of `l1 ++ l2`: the failed date contributes nothing (treated as
Unavailable), every date before and after it is still probed exactly once
(each list element is probed once by `probeOne`), previously collected
records (`acc` and `l1`'s) are unchanged, and any later window scanned from
the accumulated list is likewise unchanged. -/
theorem C5_fetch_failure_local (env : String → Page) (cfg : RouteCfg)
    (l1 l2 : List String) (acc : List TripInfo) (d : String)
    (hfail : (env (route_url cfg d)).fetch_fails = true) :
    (scan_dates env cfg (l1 ++ d :: l2) acc).1 = (scan_dates env cfg (l1 ++ l2) acc).1 ∧
    (scan_dates env cfg (l1 ++ d :: l2) acc).1 =
      acc ++ l1.filterMap (probeOne env cfg) ++ l2.filterMap (probeOne env cfg) ∧
    (∀ (cfg2 : RouteCfg) (dates2 : List String),
      (scan_dates env cfg2 dates2 (scan_dates env cfg (l1 ++ d :: l2) acc).1).1 =
        (scan_dates env cfg2 dates2 (scan_dates env cfg (l1 ++ l2) acc).1).1) := by
  have hnone : probeOne env cfg d = none :=
    check_availability_of_fetch_fails (env (route_url cfg d)) (route_url cfg d)
      (route_label cfg) d hfail
  have h1 : (scan_dates env cfg (l1 ++ d :: l2) acc).1 =
      (scan_dates env cfg (l1 ++ l2) acc).1 := by
    rw [scan_dates_records, scan_dates_records]
    rw [List.filterMap_append, List.filterMap_append, List.filterMap_cons, hnone]
  refine ⟨h1, ?_, fun cfg2 dates2 => by rw [h1]⟩
  rw [scan_dates_records, List.filterMap_append, List.filterMap_cons, hnone,
    List.append_assoc]

/-- C5 witness: with every fetch failing, scanning three dates around the
failing middle date collects the same (empty) records as scanning the two
outer dates. -/
theorem C5_fetch_failure_local_witness :
    ((fun _ => (⟨true, "", fun _ => []⟩ : Page)) (route_url outboundCfg "2025-03-04")).fetch_fails
        = true ∧
    (scan_dates (fun _ => ⟨true, "", fun _ => []⟩) outboundCfg
        (["2025-03-03"] ++ "2025-03-04" :: ["2025-03-05"]) []).1 =
      (scan_dates (fun _ => ⟨true, "", fun _ => []⟩) outboundCfg
        (["2025-03-03"] ++ ["2025-03-05"]) []).1 :=
  ⟨rfl,
   (C5_fetch_failure_local (fun _ => ⟨true, "", fun _ => []⟩) outboundCfg
      ["2025-03-03"] ["2025-03-05"] [] "2025-03-04" rfl).1⟩

/-- C6: pacing.  In the full run trace (both windows), every fetch event
that is not the final event is immediately followed by a delay event — the
2000 ms pacing wait at the end of each loop iteration.  The statement
quantifies over every environment, including ones whose fetches fail, so
the delay is performed even after a failed fetch attempt. -/
theorem C6_pacing_delay_between_fetches (env : String → Page) :
    PacedP (run_scan env).2 := by
  unfold run_scan
  dsimp only
  refine scan_dates_trace_paced env outboundCfg _ [] _ ?_
  have h := scan_dates_trace_paced env returnCfg
    ((generate_dates returnCfg.start_date returnCfg.end_date).getD [])
    (scan_dates env outboundCfg
      ((generate_dates outboundCfg.start_date outboundCfg.end_date).getD []) []).1
    [] pacedP_nil
  simpa using h

/-- C7 counterexample: the URL builder is not injective on arbitrary
station strings.  Two distinct (origin, destination) pairs — one smuggling
the literal text "&ArrivalStation=" inside the origin — produce the
identical descriptor string, because parameters are joined by plain
concatenation with no escaping. -/
theorem C7_counterexample :
    build_search_url "X&ArrivalStation=Y" "Z" "2025-03-03" "N" =
      build_search_url "X" "Y&ArrivalStation=Z" "2025-03-03" "N" ∧
    ("X&ArrivalStation=Y", "Z") ≠ ("X", "Y&ArrivalStation=Z") := by
  constructor
  · rfl
  · decide

/-- C7 (amended): `build_search_url` is deterministic (it is a pure
function of its four inputs) and injective on inputs that do not contain
the parameter separator `&`: if two calls with `&`-free origin,
destination, date and direction produce the same descriptor, the inputs
are componentwise equal.  The descriptor itself is the fixed base path with
the stable-ordered parameter set (see `build_search_url` and
`build_url_data`). -/
theorem C7_injective_on_amp_free (f1 t1 d1 r1 f2 t2 d2 r2 : String)
    (hf1 : '&' ∉ f1.data) (ht1 : '&' ∉ t1.data) (hd1 : '&' ∉ d1.data) (hr1 : '&' ∉ r1.data)
    (hf2 : '&' ∉ f2.data) (ht2 : '&' ∉ t2.data) (hd2 : '&' ∉ d2.data) (hr2 : '&' ∉ r2.data)
    (heq : build_search_url f1 t1 d1 r1 = build_search_url f2 t2 d2 r2) :
    f1 = f2 ∧ t1 = t2 ∧ d1 = d2 ∧ r1 = r2 := by
  have hdata : (build_search_url f1 t1 d1 r1).data = (build_search_url f2 t2 d2 r2).data := by
    rw [heq]
  rw [build_url_data, build_url_data] at hdata
  have h1 := cancelPre _ _ _ hdata
  obtain ⟨hfe, h2⟩ := amp_split _ _ _ _ hf1 hf2 h1
  have h3 := cancelPre _ _ _ h2
  obtain ⟨hte, h4⟩ := amp_split _ _ _ _ ht1 ht2 h3
  have h5 := cancelPre _ _ _ h4
  obtain ⟨hde, h6⟩ := amp_split _ _ _ _ hd1 hd2 h5
  have h7 := cancelPre _ _ _ h6
  exact ⟨string_data_inj _ _ hfe, string_data_inj _ _ hte,
    string_data_inj _ _ hde, string_data_inj _ _ h7⟩

/-- C7 witness: the injectivity theorem applied at the `&`-free
configuration values. -/
theorem C7_injective_on_amp_free_witness :
    ("RIY" : String) = "RIY" ∧ ("QUR" : String) = "QUR" ∧
      ("2025-03-03" : String) = "2025-03-03" ∧ ("N" : String) = "N" :=
  C7_injective_on_amp_free "RIY" "QUR" "2025-03-03" "N" "RIY" "QUR" "2025-03-03" "N"
    (by decide) (by decide) (by decide) (by decide)
    (by decide) (by decide) (by decide) (by decide) rfl

/-- C10: notification delivery failure never aborts the run.  With
configured (truthy) credentials and a non-empty trip list, if the
`SMTP_SSL` send on port 465 fails, `send_email` makes exactly one further
attempt, over STARTTLS on port 587; if that fails too the outcome is
`failedBoth` — a printed error and a normal return, never an escaping
exception, so `main` still finishes and the process exits successfully. -/
theorem C10_email_fallback (env : EmailEnv) (trips : List TripInfo)
    (hne : trips ≠ []) (he : truthy env.sender_email = true)
    (hp : truthy env.sender_password = true) (hssl : env.ssl_ok = false) :
    (send_email env trips).2 = [SmtpAttempt.sslPort 465, SmtpAttempt.tlsPort 587] ∧
    (env.tls_ok = false → (send_email env trips).1 = EmailOutcome.failedBoth) := by
  unfold send_email
  rw [if_pos (by rw [he, hp]; rfl)]
  rw [if_neg (by rw [hssl]; exact Bool.false_ne_true)]
  by_cases htls : env.tls_ok
  · rw [if_pos htls]
    exact ⟨rfl, fun hc => absurd htls (by rw [hc]; exact Bool.false_ne_true)⟩
  · rw [if_neg htls]
    exact ⟨rfl, fun _ => rfl⟩

/-- C10 witness: both SMTP paths failing still yields a normal
`failedBoth` return with exactly the two attempts 465 then 587. -/
theorem C10_email_fallback_witness :
    (send_email ⟨some "a@example.com", some "pw", false, false⟩
        [⟨"2025-03-03", "r", "u", 1, none⟩]).2 =
      [SmtpAttempt.sslPort 465, SmtpAttempt.tlsPort 587] ∧
    (send_email ⟨some "a@example.com", some "pw", false, false⟩
        [⟨"2025-03-03", "r", "u", 1, none⟩]).1 = EmailOutcome.failedBoth :=
  have h := C10_email_fallback ⟨some "a@example.com", some "pw", false, false⟩
    [⟨"2025-03-03", "r", "u", 1, none⟩] (by decide) rfl rfl rfl
  ⟨h.1, h.2 rfl⟩

/-- C2 counterexample: start = end = 9999-12-31 is a pair of valid dates
with start ≤ end, yet `generate_dates` raises (modelled `none`) instead of
returning the singleton sequence: after appending the last date the loop
increments past `datetime.max`, and Python raises `OverflowError`. -/
theorem C2_counterexample_overflow :
    genDates ⟨9999, 12, 31⟩ ⟨⟨9999, 12, 31⟩, by decide⟩ = none :=
  genDates_overflow ⟨9999, 12, 31⟩ ⟨⟨9999, 12, 31⟩, by decide⟩ (Nat.le_refl _) (by decide)

/-- C2 (amended): for valid dates with start ≤ end and end strictly before
9999-12-31, the walk returns exactly the ascending chronological sequence
of every calendar day from start to end inclusive: the ordinals of the
produced list are exactly `start.toOrdinal, ..., end.toOrdinal` in order
(no day missing, none duplicated, none out of range), every produced date
is valid, and a valid date is in the list iff it lies in the inclusive
range.  When start > end the result is the empty sequence, not an error.
When end = 9999-12-31 the final increment overflows and the call raises
(see the counterexample). -/
theorem C2_generate_dates_inclusive_range (s e : VDate) :
    (e.1.toOrdinal < maxOrdinal → s.1.toOrdinal ≤ e.1.toOrdinal →
      ∃ L, genDates e.1 s = some L ∧
        L.map Date.toOrdinal = natRange s.1.toOrdinal (e.1.toOrdinal + 1 - s.1.toOrdinal) ∧
        L.Nodup ∧
        (∀ d ∈ L, d.Valid) ∧
        (∀ d : Date, d.Valid →
          (d ∈ L ↔ s.1.toOrdinal ≤ d.toOrdinal ∧ d.toOrdinal ≤ e.1.toOrdinal))) ∧
    (e.1.toOrdinal < s.1.toOrdinal → genDates e.1 s = some []) := by
  constructor
  · intro hmax hle
    obtain ⟨L, hL, hmap, hval⟩ := genDates_sound e.1 hmax _ s rfl hle
    refine ⟨L, hL, hmap, ?_, hval, fun d hd => genDates_mem e.1 s hmax hle L hL d hd⟩
    have hnd := natRange_nodup (e.1.toOrdinal + 1 - s.1.toOrdinal) s.1.toOrdinal
    rw [← hmap] at hnd
    exact hnd.of_map
  · intro hgt
    exact genDates_stop e.1 s (by omega)

/-- C2 witness: the inclusive range walked from 2025-03-03 to 2025-03-05. -/
theorem C2_generate_dates_inclusive_range_witness :
    Date.toOrdinal ⟨2025, 3, 5⟩ < maxOrdinal ∧
    ∃ L, genDates ⟨2025, 3, 5⟩ ⟨⟨2025, 3, 3⟩, by decide⟩ = some L ∧
      L.map Date.toOrdinal =
        natRange (Date.toOrdinal ⟨2025, 3, 3⟩)
          (Date.toOrdinal ⟨2025, 3, 5⟩ + 1 - Date.toOrdinal ⟨2025, 3, 3⟩) ∧
      L.Nodup ∧
      (∀ d ∈ L, d.Valid) ∧
      (∀ d : Date, d.Valid →
        (d ∈ L ↔ Date.toOrdinal ⟨2025, 3, 3⟩ ≤ d.toOrdinal ∧
          d.toOrdinal ≤ Date.toOrdinal ⟨2025, 3, 5⟩)) :=
  ⟨by decide,
   (C2_generate_dates_inclusive_range ⟨⟨2025, 3, 3⟩, by decide⟩
      ⟨⟨2025, 3, 5⟩, by decide⟩).1 (by decide) (by decide)⟩

/-- C3: the weekday filter (modelled from the spec, §4.1: the source has no
weekday filter).  For a window with start ≤ end (and end before
`datetime.max`): with a non-empty filter, a valid date is in the output iff
it lies in the inclusive range and its weekday ordinal (Monday = 0 ..
Sunday = 6) is a member of the filter; with an empty/absent filter every
calendar day in the range is included.  In particular the window
2026-02-03 .. 2026-02-05 with filter {Tuesday} yields exactly the single
matching date 2026-02-03. -/
theorem C3_weekday_filter (s e : VDate) (ws : List Nat)
    (hmax : e.1.toOrdinal < maxOrdinal) (hle : s.1.toOrdinal ≤ e.1.toOrdinal) :
    (∃ L, genDatesFiltered e.1 s ws = some L ∧
      (ws ≠ [] → ∀ d : Date, d.Valid →
        (d ∈ L ↔ s.1.toOrdinal ≤ d.toOrdinal ∧ d.toOrdinal ≤ e.1.toOrdinal ∧
          weekday d ∈ ws)) ∧
      (ws = [] → ∀ d : Date, d.Valid →
        (d ∈ L ↔ s.1.toOrdinal ≤ d.toOrdinal ∧ d.toOrdinal ≤ e.1.toOrdinal))) ∧
    genDatesFiltered ⟨2026, 2, 5⟩ ⟨⟨2026, 2, 3⟩, by decide⟩ [1] =
      some [⟨2026, 2, 3⟩] := by
  constructor
  · obtain ⟨L0, hL0, hmap, hval⟩ := genDates_sound e.1 hmax _ s rfl hle
    have hmem := fun d hd => genDates_mem e.1 s hmax hle L0 hL0 d hd
    refine ⟨if ws.isEmpty then L0 else L0.filter (fun d => decide (weekday d ∈ ws)),
      by unfold genDatesFiltered; rw [hL0]; rfl, ?_, ?_⟩
    · intro hws d hd
      have hemp : ws.isEmpty = false := by
        cases ws with
        | nil => exact absurd rfl hws
        | cons a l => rfl
      rw [hemp]
      simp only [Bool.false_eq_true, if_false, List.mem_filter, decide_eq_true_iff]
      rw [hmem d hd]
      tauto
    · intro hws d hd
      rw [hws]
      simp only [List.isEmpty_nil, if_true]
      exact hmem d hd
  · have hg : genDates ⟨2026, 2, 5⟩ ⟨⟨2026, 2, 3⟩, by decide⟩ =
        some [⟨2026, 2, 3⟩, ⟨2026, 2, 4⟩, ⟨2026, 2, 5⟩] := by
      rw [genDates_step ⟨2026, 2, 5⟩ ⟨⟨2026, 2, 3⟩, by decide⟩ ⟨⟨2026, 2, 4⟩, by decide⟩
        (by decide) (by decide)]
      rw [genDates_step ⟨2026, 2, 5⟩ ⟨⟨2026, 2, 4⟩, by decide⟩ ⟨⟨2026, 2, 5⟩, by decide⟩
        (by decide) (by decide)]
      rw [genDates_step ⟨2026, 2, 5⟩ ⟨⟨2026, 2, 5⟩, by decide⟩ ⟨⟨2026, 2, 6⟩, by decide⟩
        (by decide) (by decide)]
      rw [genDates_stop ⟨2026, 2, 5⟩ ⟨⟨2026, 2, 6⟩, by decide⟩ (by decide)]
      rfl
    unfold genDatesFiltered
    rw [hg]
    decide

/-- C3 witness: the theorem applied to the window 2026-02-03 .. 2026-02-05
with filter {Tuesday = 1}. -/
theorem C3_weekday_filter_witness :
    genDatesFiltered ⟨2026, 2, 5⟩ ⟨⟨2026, 2, 3⟩, by decide⟩ [1] = some [⟨2026, 2, 3⟩] ∧
    Date.toOrdinal ⟨2026, 2, 3⟩ ≤ Date.toOrdinal ⟨2026, 2, 5⟩ :=
  ⟨(C3_weekday_filter ⟨⟨2026, 2, 3⟩, by decide⟩ ⟨⟨2026, 2, 5⟩, by decide⟩ [1]
      (by decide) (by decide)).2,
   by decide⟩

/-- C9 counterexample: `generate_dates` is not total over arbitrary input
strings: a malformed date string makes `datetime.strptime` raise
`ValueError` (modelled `none`), it does not return a sequence. -/
theorem C9_counterexample : generate_dates "not-a-date" "2025-03-10" = none := by
  decide

/-- C9 (amended): `generate_dates` is pure, and total on inputs that parse
as `%Y-%m-%d` dates (with end before `datetime.max`): it returns a
sequence, and when start > end that sequence is empty rather than an
error.  Malformed bounds raise `ValueError` (see the counterexample), and
end = 9999-12-31 raises `OverflowError`. -/
theorem C9_total_on_parsed (s e : String) (sv ev : VDate)
    (hs : parseDate s = some sv) (he : parseDate e = some ev)
    (hmax : ev.1.toOrdinal < maxOrdinal) :
    (∃ l, generate_dates s e = some l) ∧
    (ev.1.toOrdinal < sv.1.toOrdinal → generate_dates s e = some []) := by
  unfold generate_dates
  rw [hs, he]
  dsimp only
  constructor
  · by_cases hle : sv.1.toOrdinal ≤ ev.1.toOrdinal
    · obtain ⟨L, hL, hmap, hval⟩ := genDates_sound ev.1 hmax _ sv rfl hle
      exact ⟨L.map formatDate, by rw [hL]; rfl⟩
    · rw [genDates_stop ev.1 sv hle]
      exact ⟨[], rfl⟩
  · intro hgt
    rw [genDates_stop ev.1 sv (by omega)]
    rfl

/-- C9 witness: well-formed bounds produce a sequence. -/
theorem C9_total_on_parsed_witness :
    parseDate "2025-03-03" = some ⟨⟨2025, 3, 3⟩, by decide⟩ ∧
    ∃ l, generate_dates "2025-03-03" "2025-03-05" = some l :=
  ⟨by decide,
   (C9_total_on_parsed "2025-03-03" "2025-03-05" ⟨⟨2025, 3, 3⟩, by decide⟩
      ⟨⟨2025, 3, 5⟩, by decide⟩ (by decide) (by decide) (by decide)).1⟩

/-- C6 witness: the pacing property of the full run trace under an
environment in which every fetch fails. -/
theorem C6_pacing_delay_between_fetches_witness :
    PacedP (run_scan (fun _ => ⟨true, "", fun _ => []⟩)).2 :=
  C6_pacing_delay_between_fetches (fun _ => ⟨true, "", fun _ => []⟩)
